import Mathlib

/-!
Verification of the health-record synchronization handler
(`src/api/health/sync.js`) against its specification.

The handler is embedded shallowly:

* The relational table `health_records` is a list of `Row` values; the three
  SQL statements the handler issues (existence check by `record_id`, insert,
  range query by `user_id` with optional `updated_at` filter ordered by
  `test_date DESC`) are embedded as Lean functions over that list.  The
  store adapter (`query` from `../utils/db`) is an external collaborator;
  it is modelled as a call counter plus an optional injected `StoreFailure`
  so that call-ordering and mid-batch-failure properties can be stated.
* JSON structured values are the inductive `Jval`.  The platform JSON codec
  (`JSON.stringify` / `JSON.parse`) is modelled at the level of its
  contract: a stored text column holds either the serialization of a
  structured value (`StoredText.json v`, with `parse (json v) = ok v`) or
  text that is not parseable structured text (`StoredText.malformed`, on
  which `parse` throws), and a column can be NULL/empty (`Option.none`).
* `jwt.verify` is an external collaborator modelled by its three observable
  outcomes: a valid token carrying a `userId`, a token rejected with an
  error named `JsonWebTokenError` (malformed token / bad signature), and a
  token rejected with an error named `TokenExpiredError` (expiry).
* JavaScript exceptions are `JsError` values propagated in `Except`;
  the handler's `catch` block is the final wrapper `handler`.
* Transport-level CORS / HTTP-method dispatch is outside the modelled core
  (the spec places it out of scope); the model covers the POST body path.
-/

/-- A JSON structured value (the client-side form of `answers` / `result`). -/
inductive Jval where
  | null : Jval
  | bool (b : Bool) : Jval
  | num (n : Int) : Jval
  | str (s : String) : Jval
  | arr (elems : List Jval) : Jval
  | obj (fields : List (String × Jval)) : Jval

/-- A JavaScript error as observed by the handler's catch block:
its `name` and its `message`. -/
structure JsError where
  name : String
  message : String

/-- A TEXT column value: either the serialization of structured value `v`
(what `JSON.stringify v` produces), or stored text that is not parseable
structured text.  A NULL or empty-string column is `Option.none` one level
up. -/
inductive StoredText where
  | json (v : Jval) : StoredText
  | malformed : StoredText

/-- `JSON.stringify` on an optionally-absent structured value:
`JSON.stringify undefined` is `undefined` (stored as NULL), and
`JSON.stringify v` is the serialization of `v`. -/
def jsonStringify (v : Option Jval) : Option StoredText :=
  v.map StoredText.json

/-- The error `JSON.parse` throws on unparseable text. -/
def jsonParseError : JsError := ⟨"SyntaxError", "Unexpected token"⟩

/-- `JSON.parse (col || dflt)`: a NULL / empty column falls back to the
default literal (`'[]'` or `'\x7b\x7d'` in the source, which parse to the
empty-equivalent value `dflt`); the serialization of `v` parses back to `v`;
malformed text throws a `SyntaxError`. -/
def jsonParseCol (col : Option StoredText) (dflt : Jval) : Except JsError Jval :=
  match col with
  | none => .ok dflt
  | some (.json v) => .ok v
  | some .malformed => .error jsonParseError

/-- A bearer token as the handler can observe it through `jwt.verify`:
valid (carrying the decoded `userId`), rejected with an error named
`JsonWebTokenError` (malformed token or bad signature), or rejected with an
error named `TokenExpiredError` (expired). -/
inductive Tok where
  | valid (userId : Nat) : Tok
  | badSig : Tok
  | expired : Tok

/-- `verifyToken` from `sync.js`: a missing `Authorization` token throws a
plain `Error` with message `未提供token`; otherwise `jwt.verify` either
returns the decoded payload or throws. -/
def verifyToken (auth : Option Tok) : Except JsError Nat :=
  match auth with
  | none => .error ⟨"Error", "未提供token"⟩
  | some (.valid userId) => .ok userId
  | some .badSig => .error ⟨"JsonWebTokenError", "invalid signature"⟩
  | some .expired => .error ⟨"TokenExpiredError", "jwt expired"⟩

/-- A row of the `health_records` table. `created_at` is written by the
insert statement. `updated_at` — modelled from the spec: the table schema is
not under `src/`; per the spec, `created_at` / `updated_at` are
store-assigned timestamps and `updated_at` drives incremental download, so
the insert model stamps it with the current time. -/
structure Row where
  user_id : Nat
  record_id : String
  test_type : String
  test_name : String
  test_date : Int
  answers : Option StoredText
  result : Option StoredText
  created_at : Int
  updated_at : Int

/-- A client record as submitted in an upload batch. Optional fields are
absent (`undefined`) when `none`. -/
structure ClientRecord where
  id : String
  testType : String
  testName : String
  date : Int
  answers : Option Jval
  result : Option Jval
  timestamp : Option Int

/-- The `records` field of an upload body, as JavaScript sees it: absent or
otherwise falsy is `none` one level up; a present value is either not an
array, or an array of records (an array is always truthy, including `[]`). -/
inductive RecordsField where
  | notArray : RecordsField
  | array (rs : List ClientRecord) : RecordsField

/-- A `lastSyncTime` value present in a download body.  The code's only
uses of it are the JavaScript truthiness test `if (lastSyncTime)` and, for
truthy values, the conversion `new Date(lastSyncTime)`; a truthy value
(nonzero number, or a non-empty date string) is therefore represented by
the time point it converts to, and the falsy empty string is `emptyStr`
(the falsy number 0 is `num 0`). -/
inductive SinceVal where
  | num (t : Int) : SinceVal
  | emptyStr : SinceVal

/-- JavaScript truthiness of a present `lastSyncTime` value. -/
def sinceTruthy : SinceVal → Bool
  | .num t => t != 0
  | .emptyStr => false

/-- The time point `new Date(lastSyncTime)` denotes.  Only ever consulted
for truthy values (the code converts `lastSyncTime` only inside
`if (lastSyncTime)`); the value for `emptyStr` is never reached. -/
def sinceTime : SinceVal → Int
  | .num t => t
  | .emptyStr => 0

/-- The `action` field of the request body: `upload`, `download`, or
anything else (absent or unrecognized). -/
inductive SyncAction where
  | upload : SyncAction
  | download : SyncAction
  | invalid : SyncAction

/-- A POST request to the sync endpoint: the bearer credential and the
body fields the handler reads. -/
structure Req where
  auth : Option Tok
  action : SyncAction
  records : Option RecordsField
  lastSyncTime : Option SinceVal

/-- A record in the download response's client wire shape. -/
structure WireRecord where
  id : String
  testType : String
  testName : String
  date : Int
  timestamp : Int
  answers : Jval
  result : Jval

/-- The `data` object of a success response: upload counts, or the
download payload (reshaped records plus the server `syncTime`). -/
inductive RespData where
  | uploadCounts (uploaded skipped total : Nat) : RespData
  | downloadPayload (records : List WireRecord) (syncTime : Int) : RespData

/-- The JSON response the handler sends. -/
structure Resp where
  status : Nat
  success : Bool
  message : Option String
  error : Option String
  data : Option RespData

/-- The store adapter control state: an optional injected fault (the store
call made when the countdown is at 0 throws a `StoreFailure`) and a count
of the store calls completed, so that "no store call is made" is a stated
fact rather than an informal one. -/
structure StoreCtl where
  fault : Option Nat
  calls : Nat

/-- The error a failing store call throws (a `StoreFailure`; its `name` is
not `JsonWebTokenError`, so the catch block reports it generically). -/
def storeFailure : JsError := ⟨"Error", "store failure"⟩

/-- One store call through the adapter: throws if the injected fault fires
now, otherwise counts the call and advances the fault countdown. -/
def stepCall (ctl : StoreCtl) : Except JsError StoreCtl :=
  match ctl.fault with
  | some 0 => .error storeFailure
  | some (n + 1) => .ok ⟨some n, ctl.calls + 1⟩
  | none => .ok ⟨none, ctl.calls + 1⟩

/-- The existence check
`SELECT id FROM health_records WHERE record_id = ?`: the rows whose
`record_id` equals the given id — note the statement has no `user_id`
condition. -/
def selectByRecordId (db : List Row) (rid : String) : List Row :=
  db.filter (fun row => row.record_id == rid)

/-- The row the INSERT statement writes for client record `r` on behalf of
`userId`: `created_at` is `record.timestamp ? new Date(record.timestamp) :
new Date()` (a falsy — absent or zero — client timestamp means the current
time), `answers` / `result` are `JSON.stringify` of the submitted values. -/
def insertRow (userId : Nat) (now : Int) (r : ClientRecord) : Row where
  user_id := userId
  record_id := r.id
  test_type := r.testType
  test_name := r.testName
  test_date := r.date
  answers := jsonStringify r.answers
  result := jsonStringify r.result
  created_at :=
    match r.timestamp with
    | some t => if t != 0 then t else now
    | none => now
  updated_at := now

/-- The outcome of a store-using computation: the table after it (writes
that happened before a throw persist), the adapter control state, and
either a value or the thrown error. -/
structure StoreStep (α : Type) where
  db : List Row
  ctl : StoreCtl
  res : Except JsError α

/-- The upload loop of `sync.js`: for each record in order, one store call
checks existence by `record_id`; if found the record is skipped, otherwise
a second store call inserts it.  A thrown store error aborts the loop,
keeping the writes made so far. -/
def uploadLoop (userId : Nat) (now : Int) :
    List ClientRecord → List Row → Nat → Nat → StoreCtl → StoreStep (Nat × Nat)
  | [], db, successCount, skipCount, ctl => ⟨db, ctl, .ok (successCount, skipCount)⟩
  | r :: rs, db, successCount, skipCount, ctl =>
    match stepCall ctl with
    | .error e => ⟨db, ctl, .error e⟩
    | .ok ctl1 =>
      if (selectByRecordId db r.id).length > 0 then
        uploadLoop userId now rs db successCount (skipCount + 1) ctl1
      else
        match stepCall ctl1 with
        | .error e => ⟨db, ctl1, .error e⟩
        | .ok ctl2 =>
          uploadLoop userId now rs (db ++ [insertRow userId now r])
            (successCount + 1) skipCount ctl2

/-- Insert a row into a list sorted by `test_date` in descending order. -/
def insertDescByDate (r : Row) : List Row → List Row
  | [] => [r]
  | x :: xs =>
    if x.test_date ≤ r.test_date then r :: x :: xs else x :: insertDescByDate r xs

/-- `ORDER BY test_date DESC`. -/
def sortDescByDate : List Row → List Row
  | [] => []
  | r :: rs => insertDescByDate r (sortDescByDate rs)

/-- The download range query
`SELECT * FROM health_records WHERE user_id = ? [AND updated_at > ?] ORDER
BY test_date DESC`: the `updated_at` condition is added only when the
request's `lastSyncTime` is truthy. -/
def downloadQuery (db : List Row) (userId : Nat) (since : Option SinceVal) :
    List Row :=
  let base := db.filter (fun row => row.user_id == userId)
  let restricted :=
    match since with
    | some v =>
      if sinceTruthy v then base.filter (fun row => sinceTime v < row.updated_at) else base
    | none => base
  sortDescByDate restricted

/-- Reshape one stored row to the client wire form, in source field order:
`timestamp` is `new Date(r.test_date).getTime()`, and `answers` / `result`
are `JSON.parse(col || empty-literal)` — which throws on malformed stored
text. -/
def formatRow (row : Row) : Except JsError WireRecord := do
  let a ← jsonParseCol row.answers (Jval.arr [])
  let res ← jsonParseCol row.result (Jval.obj [])
  .ok ⟨row.record_id, row.test_type, row.test_name, row.test_date,
       row.test_date, a, res⟩

/-- A 400 response with the given message (`记录格式错误` / `无效的action`). -/
def resp400 (msg : String) : Resp := ⟨400, false, some msg, none, none⟩

/-- The 200 response of a successful upload. -/
def resp200Upload (uploaded skipped total : Nat) : Resp :=
  ⟨200, true, none, none, some (.uploadCounts uploaded skipped total)⟩

/-- The 200 response of a successful download. -/
def resp200Download (records : List WireRecord) (syncTime : Int) : Resp :=
  ⟨200, true, none, none, some (.downloadPayload records syncTime)⟩

/-- The 401 response of the `JsonWebTokenError` branch of the catch block. -/
def resp401 : Resp := ⟨401, false, some "token无效", none, none⟩

/-- The 500 response of the fallback branch of the catch block: a generic
message plus an `error` field echoing the caught error's own message. -/
def resp500 (e : JsError) : Resp := ⟨500, false, some "服务器错误", some e.message, none⟩

/-- The body of the handler's `try` block: verify the credential, then
dispatch on `action`.  Returns the table and adapter state together with
the response or the thrown error. -/
def syncBody (now : Int) (req : Req) (db : List Row) (ctl : StoreCtl) :
    StoreStep Resp :=
  match verifyToken req.auth with
  | .error e => ⟨db, ctl, .error e⟩
  | .ok userId =>
    match req.action with
    | .upload =>
      match req.records with
      | some (.array rs) =>
        match uploadLoop userId now rs db 0 0 ctl with
        | ⟨db', ctl', .error e⟩ => ⟨db', ctl', .error e⟩
        | ⟨db', ctl', .ok (successCount, skipCount)⟩ =>
          ⟨db', ctl', .ok (resp200Upload successCount skipCount rs.length)⟩
      | _ => ⟨db, ctl, .ok (resp400 "记录格式错误")⟩
    | .download =>
      match stepCall ctl with
      | .error e => ⟨db, ctl, .error e⟩
      | .ok ctl' =>
        match (downloadQuery db userId req.lastSyncTime).mapM formatRow with
        | .error e => ⟨db, ctl', .error e⟩
        | .ok records => ⟨db, ctl', .ok (resp200Download records now)⟩
    | .invalid => ⟨db, ctl, .ok (resp400 "无效的action")⟩

/-- The handler outcome: the response sent, the table, and the adapter
control state. -/
structure HOut where
  resp : Resp
  db : List Row
  ctl : StoreCtl

/-- The full handler `handler` of `sync.js` (POST path): the `try` body
wrapped by the `catch` block, which maps an error named `JsonWebTokenError`
to 401 with a fixed message and anything else to 500 with a generic message
and the error's own message echoed in the `error` field. -/
def handler (now : Int) (req : Req) (db : List Row) (ctl : StoreCtl) : HOut :=
  match syncBody now req db ctl with
  | ⟨db', ctl', .ok resp⟩ => ⟨resp, db', ctl'⟩
  | ⟨db', ctl', .error e⟩ =>
    if e.name == "JsonWebTokenError" then ⟨resp401, db', ctl'⟩
    else ⟨resp500 e, db', ctl'⟩

/-- The adapter state with no injected fault and no calls yet. -/
def noFault : StoreCtl := ⟨none, 0⟩

/-! Helper lemmas. -/

/-- Two download requests that differ only in `lastSyncTime` values whose
range queries agree produce the same `try`-body outcome. -/
theorem syncBody_download_congr (now : Int) (tok : Option Tok)
    (rec : Option RecordsField) (db : List Row) (ctl : StoreCtl)
    (s1 s2 : Option SinceVal)
    (h : ∀ u : Nat, downloadQuery db u s1 = downloadQuery db u s2) :
    syncBody now ⟨tok, .download, rec, s1⟩ db ctl =
      syncBody now ⟨tok, .download, rec, s2⟩ db ctl := by
  unfold syncBody
  cases hv : verifyToken tok with
  | error e => rfl
  | ok u =>
    dsimp only
    rw [h u]

/-! Claim theorems. -/

/-- C1: the upload path's existence check
(`SELECT id FROM health_records WHERE record_id = ?`) carries no owner
condition, so a record stored under owner 1 with `record_id = "r1"` makes
owner 2's upload of external id `"r1"` be counted as skipped and never
inserted: the response reports `uploaded = 0, skipped = 1` and the table is
unchanged (no row of owner 2 exists), although the only existing row
belongs to a different owner.  This evaluates the code at the failing
input of the cross-owner part of the claim. -/
theorem C1_cross_owner_dedup_eval :
    handler 100 ⟨some (Tok.valid 2), .upload,
        some (.array [⟨"r1", "t", "n", 6, none, none, none⟩]), none⟩
      [⟨1, "r1", "t", "n", 5, none, none, 5, 5⟩] noFault =
      ⟨resp200Upload 0 1 1, [⟨1, "r1", "t", "n", 5, none, none, 5, 5⟩], ⟨none, 1⟩⟩ ∧
    (⟨1, "r1", "t", "n", 5, none, none, 5, 5⟩ : Row).user_id ≠ 2 :=
  ⟨rfl, by decide⟩

/-- C2: a stored record of the caller whose `answers` column holds text
that is not parseable structured text makes the whole download throw inside
`JSON.parse`: the handler answers 500 with `success = false` and no
records at all — the other, intact record of the same owner is not
returned either.  This evaluates the code at the failing input of the
claim. -/
theorem C2_malformed_aborts_download_eval :
    handler 100 ⟨some (Tok.valid 1), .download, none, none⟩
      [⟨1, "r1", "t", "n", 5, some .malformed, none, 5, 5⟩,
       ⟨1, "r2", "t", "n", 4, none, none, 4, 4⟩] noFault =
      ⟨⟨500, false, some "服务器错误", some "Unexpected token", none⟩,
       [⟨1, "r1", "t", "n", 5, some .malformed, none, 5, 5⟩,
        ⟨1, "r2", "t", "n", 4, none, none, 4, 4⟩], ⟨none, 1⟩⟩ :=
  rfl

/-- C3 (counterexample): an authenticated upload whose record batch is the
empty sequence is not rejected — the handler answers 200 with
`success = true` and counts `uploaded = 0, skipped = 0, total = 0`,
refuting the claim that an empty batch fails with `InvalidArgument`
(success flag false). -/
theorem C3_empty_batch_counterexample :
    (handler 0 ⟨some (Tok.valid 1), .upload, some (.array []), none⟩ [] noFault).resp =
      resp200Upload 0 0 0 ∧
    (handler 0 ⟨some (Tok.valid 1), .upload, some (.array []), none⟩ [] noFault).resp.success =
      true :=
  ⟨rfl, rfl⟩

/-- C3 (amended): an authenticated upload whose `records` field is missing
(or otherwise falsy) or is not an array fails with the 400
`InvalidArgument` response (success flag false) leaving the table and the
store-call count untouched; an empty array instead succeeds with
`uploaded = 0, skipped = 0, total = 0`, also without any store access. -/
theorem C3_amended_invalid_batch_rejected (now : Int) (uid : Nat)
    (recf : Option RecordsField) (ls : Option SinceVal) (db : List Row)
    (ctl : StoreCtl)
    (h : recf = none ∨ recf = some RecordsField.notArray) :
    handler now ⟨some (Tok.valid uid), .upload, recf, ls⟩ db ctl =
      ⟨resp400 "记录格式错误", db, ctl⟩ ∧
    handler now ⟨some (Tok.valid uid), .upload, some (RecordsField.array []), ls⟩ db ctl =
      ⟨resp200Upload 0 0 0, db, ctl⟩ := by
  obtain h | h := h <;> subst h <;> exact ⟨rfl, rfl⟩

/-- Witness for C3 (amended) at a concrete input. -/
theorem C3_amended_invalid_batch_rejected_witness :
    handler 0 ⟨some (Tok.valid 1), .upload, none, none⟩ [] noFault =
      ⟨resp400 "记录格式错误", [], noFault⟩ ∧
    handler 0 ⟨some (Tok.valid 1), .upload, some (RecordsField.array []), none⟩ [] noFault =
      ⟨resp200Upload 0 0 0, [], noFault⟩ :=
  C3_amended_invalid_batch_rejected 0 1 none none [] noFault (Or.inl rfl)

/-- C4 (counterexample): a request with no bearer token is answered with
status 500 — not an authentication-failure response — and its `error`
field echoes the internal decode error's own message (`未提供token`, the
message `verifyToken` throws), refuting both the "rejected as
Unauthenticated" and the "never echoes the internal decode error's
detail" parts of the claim. -/
theorem C4_missing_token_counterexample :
    (handler 0 ⟨none, .upload, none, none⟩ [] noFault).resp.status = 500 ∧
    (handler 0 ⟨none, .upload, none, none⟩ [] noFault).resp.error = some "未提供token" ∧
    verifyToken none = .error ⟨"Error", "未提供token"⟩ :=
  ⟨rfl, rfl, rfl⟩

/-- C4 (amended): only a credential failure whose error is named
`JsonWebTokenError` (malformed token / bad signature) is rejected with the
401 response and its fixed generic message; a missing token and an expired
token instead produce the 500 fallback response, whose body echoes the
internal decode error's message.  In all three cases the table and
store-adapter state are untouched. -/
theorem C4_amended_decode_failure_responses (now : Int) (req : Req)
    (db : List Row) (ctl : StoreCtl) :
    (req.auth = none →
      handler now req db ctl = ⟨resp500 ⟨"Error", "未提供token"⟩, db, ctl⟩) ∧
    (req.auth = some Tok.badSig →
      handler now req db ctl = ⟨resp401, db, ctl⟩) ∧
    (req.auth = some Tok.expired →
      handler now req db ctl = ⟨resp500 ⟨"TokenExpiredError", "jwt expired"⟩, db, ctl⟩) := by
  obtain ⟨a, act, rec, ls⟩ := req
  refine ⟨fun h => ?_, fun h => ?_, fun h => ?_⟩
  · have ha : a = none := h
    subst ha; rfl
  · have ha : a = some Tok.badSig := h
    subst ha; rfl
  · have ha : a = some Tok.expired := h
    subst ha; rfl

/-- Witness for C4 (amended) at a concrete input. -/
theorem C4_amended_decode_failure_responses_witness :
    handler 0 ⟨some Tok.expired, .download, none, none⟩ [] noFault =
      ⟨resp500 ⟨"TokenExpiredError", "jwt expired"⟩, [], noFault⟩ :=
  (C4_amended_decode_failure_responses 0 ⟨some Tok.expired, .download, none, none⟩
    [] noFault).2.2 rfl

/-- C8: whenever credential verification fails — for any reason — the
handler answers a failure response with the table unchanged and the
store-adapter call count unchanged: no store read or write happens on such
a request, in the upload path and the download path alike. -/
theorem C8_unauthenticated_before_store (now : Int) (req : Req)
    (db : List Row) (ctl : StoreCtl) (e : JsError)
    (h : verifyToken req.auth = .error e) :
    (handler now req db ctl).resp.success = false ∧
    (handler now req db ctl).db = db ∧
    (handler now req db ctl).ctl = ctl := by
  obtain ⟨a, act, rec, ls⟩ := req
  cases a with
  | none => exact ⟨rfl, rfl, rfl⟩
  | some t =>
    cases t with
    | valid u => exact absurd h (by simp [verifyToken])
    | badSig => exact ⟨rfl, rfl, rfl⟩
    | expired => exact ⟨rfl, rfl, rfl⟩

/-- Witness for C8 at a concrete input. -/
theorem C8_unauthenticated_before_store_witness :
    (handler 0 ⟨some Tok.badSig, .upload, some (.array []), none⟩ [] ⟨none, 0⟩).resp.success =
      false ∧
    (handler 0 ⟨some Tok.badSig, .upload, some (.array []), none⟩ [] ⟨none, 0⟩).db = [] ∧
    (handler 0 ⟨some Tok.badSig, .upload, some (.array []), none⟩ [] ⟨none, 0⟩).ctl =
      ⟨none, 0⟩ :=
  C8_unauthenticated_before_store 0 ⟨some Tok.badSig, .upload, some (.array []), none⟩
    [] ⟨none, 0⟩ ⟨"JsonWebTokenError", "invalid signature"⟩ rfl

/-- C10: a `lastSyncTime` that is present but falsy — the number 0 or the
empty string — fails the `if (lastSyncTime)` truthiness test, so the
`updated_at` restriction is not added: the range query, and with it the
whole handler, behave exactly as if `lastSyncTime` were absent. -/
theorem C10_falsy_since_like_absent (now : Int) (tok : Option Tok) (uid : Nat)
    (db : List Row) (ctl : StoreCtl) :
    downloadQuery db uid (some (SinceVal.num 0)) = downloadQuery db uid none ∧
    downloadQuery db uid (some SinceVal.emptyStr) = downloadQuery db uid none ∧
    handler now ⟨tok, .download, none, some (SinceVal.num 0)⟩ db ctl =
      handler now ⟨tok, .download, none, none⟩ db ctl ∧
    handler now ⟨tok, .download, none, some SinceVal.emptyStr⟩ db ctl =
      handler now ⟨tok, .download, none, none⟩ db ctl := by
  refine ⟨rfl, rfl, ?_, ?_⟩
  · unfold handler
    rw [syncBody_download_congr now tok none db ctl (some (SinceVal.num 0)) none
      (fun u => rfl)]
  · unfold handler
    rw [syncBody_download_congr now tok none db ctl (some SinceVal.emptyStr) none
      (fun u => rfl)]

/-- C6: uploading one record into an empty table and then downloading with
no `sinceTimestamp` returns exactly that one record, whose `answers` and
`result` equal the uploaded structured values (the
serialize→store→deserialize path is the identity), and an absent `answers`
or `result` comes back as the empty-equivalent value (`[]` / the empty
object) rather than an error. -/
theorem C6_round_trip (uid : Nat) (now now2 : Int) (r : ClientRecord) :
    (handler now2 ⟨some (Tok.valid uid), .download, none, none⟩
        (handler now ⟨some (Tok.valid uid), .upload, some (.array [r]), none⟩ [] noFault).db
        noFault).resp =
      resp200Download
        [⟨r.id, r.testType, r.testName, r.date, r.date,
          r.answers.getD (Jval.arr []), r.result.getD (Jval.obj [])⟩] now2 := by
  obtain ⟨id, tt, tn, d, a, res, ts⟩ := r
  have hdb : (handler now ⟨some (Tok.valid uid), .upload,
      some (.array [⟨id, tt, tn, d, a, res, ts⟩]), none⟩ [] noFault).db =
      [insertRow uid now ⟨id, tt, tn, d, a, res, ts⟩] := rfl
  have hq : downloadQuery [insertRow uid now ⟨id, tt, tn, d, a, res, ts⟩] uid none =
      [insertRow uid now ⟨id, tt, tn, d, a, res, ts⟩] := by
    simp [downloadQuery, insertRow, sortDescByDate, insertDescByDate]
  rw [hdb]
  unfold handler syncBody
  dsimp only [verifyToken, stepCall, noFault]
  rw [hq]
  cases a <;> cases res <;> rfl

/-- The upload loop only appends to the table. -/
theorem uploadLoop_db_extends (uid : Nat) (now : Int) (rs : List ClientRecord) :
    ∀ (db : List Row) (u s : Nat) (ctl : StoreCtl),
    ∃ ext, (uploadLoop uid now rs db u s ctl).db = db ++ ext := by
  induction rs with
  | nil => intro db u s ctl; exact ⟨[], by simp [uploadLoop]⟩
  | cons r rs ih =>
    intro db u s ctl
    simp only [uploadLoop]
    cases stepCall ctl with
    | error e => exact ⟨[], by simp⟩
    | ok ctl1 =>
      dsimp only
      by_cases hex : (selectByRecordId db r.id).length > 0
      · rw [if_pos hex]
        exact ih db u (s + 1) ctl1
      · rw [if_neg hex]
        cases stepCall ctl1 with
        | error e => exact ⟨[], by simp⟩
        | ok ctl2 =>
          dsimp only
          obtain ⟨ext, hext⟩ := ih (db ++ [insertRow uid now r]) (u + 1) s ctl2
          exact ⟨insertRow uid now r :: ext, by rw [hext, List.append_assoc]; rfl⟩

/-- A fault-free upload loop leaves, for every record of the batch, a row
with that record's external id in the table. -/
theorem uploadLoop_mem_record_id (uid : Nat) (now : Int) (rs : List ClientRecord) :
    ∀ (db : List Row) (u s c : Nat) (r : ClientRecord), r ∈ rs →
    ∃ row ∈ (uploadLoop uid now rs db u s ⟨none, c⟩).db, row.record_id = r.id := by
  induction rs with
  | nil => intro db u s c r hr; exact absurd hr (List.not_mem_nil r)
  | cons a rs ih =>
    intro db u s c r hr
    simp only [uploadLoop]
    dsimp only [stepCall]
    by_cases hex : (selectByRecordId db a.id).length > 0
    · rw [if_pos hex]
      rcases List.mem_cons.mp hr with hra | hrs
      · subst hra
        obtain ⟨row, hrowmem⟩ := List.exists_mem_of_length_pos hex
        have hid : row.record_id = r.id := by
          have := (List.mem_filter.mp hrowmem).2
          simpa using this
        obtain ⟨ext, hext⟩ := uploadLoop_db_extends uid now rs db u (s + 1) ⟨none, c + 1⟩
        refine ⟨row, ?_, hid⟩
        rw [hext]
        exact List.mem_append_left _ (List.mem_filter.mp hrowmem).1
      · exact ih db u (s + 1) (c + 1) r hrs
    · rw [if_neg hex]
      rcases List.mem_cons.mp hr with hra | hrs
      · subst hra
        obtain ⟨ext, hext⟩ := uploadLoop_db_extends uid now rs
          (db ++ [insertRow uid now r]) (u + 1) s ⟨none, c + 2⟩
        refine ⟨insertRow uid now r, ?_, rfl⟩
        rw [hext]
        simp
      · exact ih (db ++ [insertRow uid now a]) (u + 1) s (c + 2) r hrs

/-- When every record of the batch already has a row with its external id,
a fault-free upload loop writes nothing and skips every record. -/
theorem uploadLoop_all_present (uid : Nat) (now : Int) (rs : List ClientRecord) :
    ∀ (db : List Row) (u s c : Nat),
    (∀ r ∈ rs, ∃ row ∈ db, row.record_id = r.id) →
    (uploadLoop uid now rs db u s ⟨none, c⟩).db = db ∧
    (uploadLoop uid now rs db u s ⟨none, c⟩).res = .ok (u, s + rs.length) := by
  induction rs with
  | nil => intro db u s c _; exact ⟨rfl, rfl⟩
  | cons a rs ih =>
    intro db u s c h
    obtain ⟨row, hmem, hid⟩ := h a (List.mem_cons_self a rs)
    have hsel : row ∈ selectByRecordId db a.id := by
      simp [selectByRecordId, List.mem_filter, hmem, hid]
    have hex : (selectByRecordId db a.id).length > 0 :=
      List.length_pos.mpr (List.ne_nil_of_mem hsel)
    simp only [uploadLoop]
    dsimp only [stepCall]
    rw [if_pos hex]
    obtain ⟨hdb, hres⟩ := ih db u (s + 1) (c + 1)
      (fun x hx => h x (List.mem_cons_of_mem a hx))
    refine ⟨hdb, ?_⟩
    rw [hres]
    simp only [List.length_cons, Except.ok.injEq, Prod.mk.injEq]
    exact ⟨trivial, by omega⟩

/-- A fault-free upload loop never throws. -/
theorem uploadLoop_noFault_ok (uid : Nat) (now : Int) (rs : List ClientRecord) :
    ∀ (db : List Row) (u s c : Nat),
    ∃ db2 c2 counts,
      uploadLoop uid now rs db u s ⟨none, c⟩ = ⟨db2, ⟨none, c2⟩, .ok counts⟩ := by
  induction rs with
  | nil => intro db u s c; exact ⟨db, c, (u, s), rfl⟩
  | cons a rs ih =>
    intro db u s c
    simp only [uploadLoop]
    dsimp only [stepCall]
    by_cases hex : (selectByRecordId db a.id).length > 0
    · rw [if_pos hex]
      exact ih db u (s + 1) (c + 1)
    · rw [if_neg hex]
      exact ih (db ++ [insertRow uid now a]) (u + 1) s (c + 2)

/-- C5: upload is idempotent — after a first fault-free upload of a
non-empty batch succeeds, a second upload of the exact same batch by the
same owner against the resulting table succeeds with `uploaded = 0` and
`skipped = batch size`, and leaves the table unchanged: every record of
the batch now has a row with its external id, so the existence check makes
the loop skip each one without writing. -/
theorem C5_idempotent_upload (uid : Nat) (now now2 : Int) (rs : List ClientRecord)
    (db : List Row) (hne : rs ≠ []) :
    (handler now ⟨some (Tok.valid uid), .upload, some (.array rs), none⟩ db noFault).resp.success
      = true ∧
    (handler now2 ⟨some (Tok.valid uid), .upload, some (.array rs), none⟩
        (handler now ⟨some (Tok.valid uid), .upload, some (.array rs), none⟩ db noFault).db
        noFault).resp =
      resp200Upload 0 rs.length rs.length ∧
    (handler now2 ⟨some (Tok.valid uid), .upload, some (.array rs), none⟩
        (handler now ⟨some (Tok.valid uid), .upload, some (.array rs), none⟩ db noFault).db
        noFault).db =
      (handler now ⟨some (Tok.valid uid), .upload, some (.array rs), none⟩ db noFault).db := by
  obtain ⟨db1, c1, counts, hu1⟩ := uploadLoop_noFault_ok uid now rs db 0 0 0
  obtain ⟨cu, cs⟩ := counts
  have h1 : handler now ⟨some (Tok.valid uid), .upload, some (.array rs), none⟩ db noFault =
      ⟨resp200Upload cu cs rs.length, db1, ⟨none, c1⟩⟩ := by
    unfold handler syncBody
    dsimp only [verifyToken, noFault]
    rw [hu1]
  have hmem : ∀ r ∈ rs, ∃ row ∈ db1, row.record_id = r.id := by
    intro r hr
    have hm := uploadLoop_mem_record_id uid now rs db 0 0 0 r hr
    rw [hu1] at hm
    exact hm
  obtain ⟨hdb2, hres2⟩ := uploadLoop_all_present uid now2 rs db1 0 0 0 hmem
  rw [Nat.zero_add] at hres2
  rcases hu2 : uploadLoop uid now2 rs db1 0 0 ⟨none, 0⟩ with ⟨db2', ctl2', res2'⟩
  rw [hu2] at hdb2 hres2
  dsimp only at hdb2 hres2
  have h2 : handler now2 ⟨some (Tok.valid uid), .upload, some (.array rs), none⟩ db1 noFault =
      ⟨resp200Upload 0 rs.length rs.length, db1, ctl2'⟩ := by
    unfold handler syncBody
    dsimp only [verifyToken, noFault]
    rw [hdb2, hres2] at hu2
    rw [hu2]
  refine ⟨?_, ?_, ?_⟩
  · rw [h1]; rfl
  · rw [h1]
    dsimp only
    rw [h2]
  · rw [h1]
    dsimp only
    rw [h2]

/-- Witness for C5 at a concrete input. -/
theorem C5_idempotent_upload_witness :
    ([⟨"a", "t", "n", 1, none, none, none⟩] : List ClientRecord) ≠ [] ∧
    ((handler 0 ⟨some (Tok.valid 1), .upload,
        some (.array [⟨"a", "t", "n", 1, none, none, none⟩]), none⟩ [] noFault).resp.success
      = true ∧
    (handler 7 ⟨some (Tok.valid 1), .upload,
        some (.array [⟨"a", "t", "n", 1, none, none, none⟩]), none⟩
        (handler 0 ⟨some (Tok.valid 1), .upload,
          some (.array [⟨"a", "t", "n", 1, none, none, none⟩]), none⟩ [] noFault).db
        noFault).resp =
      resp200Upload 0 1 1 ∧
    (handler 7 ⟨some (Tok.valid 1), .upload,
        some (.array [⟨"a", "t", "n", 1, none, none, none⟩]), none⟩
        (handler 0 ⟨some (Tok.valid 1), .upload,
          some (.array [⟨"a", "t", "n", 1, none, none, none⟩]), none⟩ [] noFault).db
        noFault).db =
      (handler 0 ⟨some (Tok.valid 1), .upload,
        some (.array [⟨"a", "t", "n", 1, none, none, none⟩]), none⟩ [] noFault).db) :=
  ⟨by simp, C5_idempotent_upload 1 0 7 [⟨"a", "t", "n", 1, none, none, none⟩] [] (by simp)⟩

/-- Membership is preserved by sorted insertion. -/
theorem mem_insertDescByDate (r x : Row) (l : List Row) :
    x ∈ insertDescByDate r l ↔ x = r ∨ x ∈ l := by
  induction l with
  | nil => simp [insertDescByDate]
  | cons a as ih =>
    simp only [insertDescByDate]
    split
    · simp [List.mem_cons]
    · simp only [List.mem_cons, ih]
      tauto

/-- Sorting by `test_date DESC` does not change which rows appear. -/
theorem mem_sortDescByDate (x : Row) (l : List Row) :
    x ∈ sortDescByDate l ↔ x ∈ l := by
  induction l with
  | nil => simp [sortDescByDate]
  | cons a as ih => simp [sortDescByDate, mem_insertDescByDate, ih]

/-- A row is in the download range query's result exactly when it is a
stored row of the caller that passes the optional `updated_at` filter
(which applies only when `lastSyncTime` is present and truthy). -/
theorem mem_downloadQuery (db : List Row) (uid : Nat) (since : Option SinceVal) (row : Row) :
    row ∈ downloadQuery db uid since ↔
      row ∈ db ∧ row.user_id = uid ∧
        (∀ v, since = some v → sinceTruthy v = true → sinceTime v < row.updated_at) := by
  unfold downloadQuery
  cases since with
  | none => simp [mem_sortDescByDate, List.mem_filter]
  | some v =>
    dsimp only
    by_cases hv : sinceTruthy v = true
    · rw [if_pos hv]
      simp only [mem_sortDescByDate, List.mem_filter, beq_iff_eq, decide_eq_true_eq,
        Option.some.injEq]
      constructor
      · rintro ⟨⟨hdb, huid⟩, hlt⟩
        exact ⟨hdb, huid, fun v' hv' _ => hv' ▸ hlt⟩
      · rintro ⟨hdb, huid, hall⟩
        exact ⟨⟨hdb, huid⟩, hall v rfl hv⟩
    · rw [if_neg hv]
      simp only [mem_sortDescByDate, List.mem_filter, beq_iff_eq, Option.some.injEq]
      constructor
      · rintro ⟨hdb, huid⟩
        refine ⟨hdb, huid, fun v' hv' htr => ?_⟩
        subst hv'
        exact absurd htr hv
      · rintro ⟨hdb, huid, _⟩
        exact ⟨hdb, huid⟩

/-- When reshaping a whole row list succeeds, the output records are
exactly the successful reshapings of the input rows. -/
theorem mapM_formatRow_mem (rows : List Row) (ws : List WireRecord)
    (h : rows.mapM formatRow = .ok ws) (w : WireRecord) :
    w ∈ ws ↔ ∃ row ∈ rows, formatRow row = .ok w := by
  induction rows generalizing ws with
  | nil =>
    rw [List.mapM_nil] at h
    injection h with h
    subst h
    simp
  | cons r rest ih =>
    rw [List.mapM_cons] at h
    cases hf : formatRow r with
    | error e => rw [hf] at h; simp [Bind.bind, Except.bind] at h
    | ok w0 =>
      rw [hf] at h
      cases hm : rest.mapM formatRow with
      | error e => rw [hm] at h; simp [Bind.bind, Except.bind] at h
      | ok ws' =>
        rw [hm] at h
        simp only [Bind.bind, Except.bind, pure, Except.pure] at h
        injection h with h
        subst h
        constructor
        · intro hw
          rcases List.mem_cons.mp hw with hw0 | hw'
          · exact ⟨r, List.mem_cons_self r rest, by rw [hf, hw0]⟩
          · obtain ⟨row, hrm, hfr⟩ := (ih ws' hm).mp hw'
            exact ⟨row, List.mem_cons_of_mem r hrm, hfr⟩
        · rintro ⟨row, hrm, hfr⟩
          rcases List.mem_cons.mp hrm with hre | hrm'
          · subst hre
            rw [hf] at hfr
            injection hfr with hfr
            subst hfr
            exact List.mem_cons_self _ _
          · exact List.mem_cons_of_mem _ ((ih ws' hm).mpr ⟨row, hrm', hfr⟩)

/-- If the handler produced a download payload, that payload is the
successful reshaping of the caller's range query result. -/
theorem handler_download_inv (now : Int) (uid : Nat) (db : List Row) (ctl : StoreCtl)
    (since : Option SinceVal) (ws : List WireRecord) (t : Int)
    (h : (handler now ⟨some (Tok.valid uid), .download, none, since⟩ db ctl).resp.data =
      some (RespData.downloadPayload ws t)) :
    (downloadQuery db uid since).mapM formatRow = .ok ws := by
  unfold handler syncBody at h
  dsimp only [verifyToken] at h
  cases hs : stepCall ctl with
  | error e =>
    rw [hs] at h
    dsimp only at h
    split at h <;> simp [resp401, resp500] at h
  | ok ctl1 =>
    rw [hs] at h
    dsimp only at h
    cases hm : (downloadQuery db uid since).mapM formatRow with
    | error e =>
      rw [hm] at h
      dsimp only at h
      split at h <;> simp [resp401, resp500] at h
    | ok ws' =>
      rw [hm] at h
      dsimp only at h
      simp only [resp200Download] at h
      injection h with h
      injection h with h1 h2
      rw [h1]

/-- C7 (counterexample): a download with `sinceTimestamp` present as the
number 0 returns a record whose `updated_at` (0) is not strictly greater
than the given `sinceTimestamp`, refuting the claim that a present
`sinceTimestamp` restricts the result to records with
`updated_at > sinceTimestamp`. -/
theorem C7_falsy_since_counterexample :
    (handler 100 ⟨some (Tok.valid 1), .download, none, some (SinceVal.num 0)⟩
        [⟨1, "r1", "t", "n", 5, none, none, 0, 0⟩] noFault).resp =
      resp200Download [⟨"r1", "t", "n", 5, 5, Jval.arr [], Jval.obj []⟩] 100 ∧
    ¬ sinceTime (SinceVal.num 0) <
        (⟨1, "r1", "t", "n", 5, none, none, 0, 0⟩ : Row).updated_at :=
  ⟨rfl, by decide⟩

/-- C7 (amended): for an authenticated download that produced a payload,
the payload contains exactly the caller's stored records — restricted to
those with `updated_at` strictly greater than `sinceTimestamp` only when
`sinceTimestamp` is present and truthy; an absent `sinceTimestamp`, and
equally a present falsy one (the number 0 or the empty string), yields all
of the caller's records. -/
theorem C7_amended_incremental_filter (now : Int) (uid : Nat) (db : List Row)
    (ctl : StoreCtl) (since : Option SinceVal) (ws : List WireRecord) (t : Int)
    (h : (handler now ⟨some (Tok.valid uid), .download, none, since⟩ db ctl).resp.data =
      some (RespData.downloadPayload ws t)) (w : WireRecord) :
    w ∈ ws ↔ ∃ row, row ∈ db ∧ row.user_id = uid ∧
      (∀ v, since = some v → sinceTruthy v = true → sinceTime v < row.updated_at) ∧
      formatRow row = .ok w := by
  rw [mapM_formatRow_mem _ _ (handler_download_inv now uid db ctl since ws t h) w]
  constructor
  · rintro ⟨row, hrm, hfr⟩
    obtain ⟨h1, h2, h3⟩ := (mem_downloadQuery db uid since row).mp hrm
    exact ⟨row, h1, h2, h3, hfr⟩
  · rintro ⟨row, h1, h2, h3, hfr⟩
    exact ⟨row, (mem_downloadQuery db uid since row).mpr ⟨h1, h2, h3⟩, hfr⟩

/-- Witness for C7 (amended) at a concrete input. -/
theorem C7_amended_incremental_filter_witness :
    (⟨"r1", "t", "n", 5, 5, Jval.arr [], Jval.obj []⟩ : WireRecord) ∈
        [(⟨"r1", "t", "n", 5, 5, Jval.arr [], Jval.obj []⟩ : WireRecord)] ↔
      ∃ row, row ∈ [(⟨1, "r1", "t", "n", 5, none, none, 10, 10⟩ : Row)] ∧
        row.user_id = 1 ∧
        (∀ v, (some (SinceVal.num 4) : Option SinceVal) = some v →
          sinceTruthy v = true → sinceTime v < row.updated_at) ∧
        formatRow row = .ok ⟨"r1", "t", "n", 5, 5, Jval.arr [], Jval.obj []⟩ :=
  C7_amended_incremental_filter 100 1 [⟨1, "r1", "t", "n", 5, none, none, 10, 10⟩]
    noFault (some (SinceVal.num 4)) [⟨"r1", "t", "n", 5, 5, Jval.arr [], Jval.obj []⟩]
    100 rfl ⟨"r1", "t", "n", 5, 5, Jval.arr [], Jval.obj []⟩

/-- The number of store calls a fault-free run of the upload loop makes
processing the batch against the given initial table: one call for a
skipped record (its existence check), two for an inserted record
(existence check plus insert). -/
def cleanCalls (uid : Nat) (now : Int) : List Row → List ClientRecord → Nat
  | _, [] => 0
  | db, r :: rs =>
    if (selectByRecordId db r.id).length > 0 then 1 + cleanCalls uid now db rs
    else 2 + cleanCalls uid now (db ++ [insertRow uid now r]) rs

/-- If the injected store fault falls among the calls the k-th record's
processing performs, the upload loop throws a `StoreFailure` and the table
it leaves behind is exactly the table a fault-free run of the first k
records produces: earlier writes are kept, the k-th record is not
inserted, and no later record is processed. -/
theorem uploadLoop_fault_hits (uid : Nat) (now : Int) :
    ∀ (k : Nat) (rs : List ClientRecord) (db : List Row) (u s c f : Nat),
    k < rs.length →
    cleanCalls uid now db (rs.take k) ≤ f →
    f < cleanCalls uid now db (rs.take (k + 1)) →
    (uploadLoop uid now rs db u s ⟨some f, c⟩).db =
      (uploadLoop uid now (rs.take k) db u s ⟨none, c⟩).db ∧
    (uploadLoop uid now rs db u s ⟨some f, c⟩).res = .error storeFailure := by
  intro k
  induction k with
  | zero =>
    intro rs db u s c f hk hlo hhi
    cases rs with
    | nil => simp at hk
    | cons r rs' =>
      by_cases hex : (selectByRecordId db r.id).length > 0
      · have hf : f = 0 := by
          simp only [List.take_succ_cons, List.take_zero, cleanCalls, if_pos hex] at hhi
          omega
        subst hf
        exact ⟨rfl, rfl⟩
      · have hf : f = 0 ∨ f = 1 := by
          simp only [List.take_succ_cons, List.take_zero, cleanCalls, if_neg hex] at hhi
          omega
        rcases hf with hf | hf <;> subst hf
        · exact ⟨rfl, rfl⟩
        · simp only [uploadLoop, List.take_zero]
          dsimp only [stepCall]
          rw [if_neg hex]
          exact ⟨rfl, rfl⟩
  | succ k ih =>
    intro rs db u s c f hk hlo hhi
    cases rs with
    | nil => simp at hk
    | cons r rs' =>
      have hk' : k < rs'.length := by simpa using hk
      by_cases hex : (selectByRecordId db r.id).length > 0
      · simp only [List.take_succ_cons, cleanCalls, if_pos hex] at hlo hhi
        obtain ⟨f', rfl⟩ : ∃ f', f = f' + 1 := ⟨f - 1, by omega⟩
        simp only [uploadLoop, List.take_succ_cons]
        dsimp only [stepCall]
        simp only [if_pos hex]
        exact ih rs' db u (s + 1) (c + 1) f' hk' (by omega) (by omega)
      · simp only [List.take_succ_cons, cleanCalls, if_neg hex] at hlo hhi
        obtain ⟨f', rfl⟩ : ∃ f', f = f' + 1 + 1 := ⟨f - 2, by omega⟩
        simp only [uploadLoop, List.take_succ_cons]
        dsimp only [stepCall]
        simp only [if_neg hex]
        exact ih rs' (db ++ [insertRow uid now r]) (u + 1) s (c + 2) f' hk'
          (by omega) (by omega)

/-- C9: when a store failure strikes while the upload loop is processing
the k-th record of the batch, the handler answers the 500 failure response
(success flag false, `data = none`, so no indication of which records
succeeded) and the table equals the result of cleanly processing only the
first k records: prior writes remain durable, nothing after the k-th
record is processed. -/
theorem C9_midbatch_store_failure (uid : Nat) (now : Int) (rs : List ClientRecord)
    (db : List Row) (k f : Nat) (hk : k < rs.length)
    (hlo : cleanCalls uid now db (rs.take k) ≤ f)
    (hhi : f < cleanCalls uid now db (rs.take (k + 1))) :
    (handler now ⟨some (Tok.valid uid), .upload, some (.array rs), none⟩ db
        ⟨some f, 0⟩).resp =
      resp500 storeFailure ∧
    (handler now ⟨some (Tok.valid uid), .upload, some (.array rs), none⟩ db
        ⟨some f, 0⟩).db =
      (uploadLoop uid now (rs.take k) db 0 0 ⟨none, 0⟩).db := by
  obtain ⟨hdb, hres⟩ := uploadLoop_fault_hits uid now k rs db 0 0 0 f hk hlo hhi
  rcases hu : uploadLoop uid now rs db 0 0 ⟨some f, 0⟩ with ⟨db', ctl', res'⟩
  rw [hu] at hdb hres
  dsimp only at hdb hres
  subst hres
  have hh : handler now ⟨some (Tok.valid uid), .upload, some (.array rs), none⟩ db
      ⟨some f, 0⟩ = ⟨resp500 storeFailure, db', ctl'⟩ := by
    unfold handler syncBody
    dsimp only [verifyToken]
    rw [hu]
    rfl
  rw [hh]
  exact ⟨rfl, hdb⟩

/-- Witness for C9 at a concrete input: two fresh records, fault at store
call index 2 (the second record's existence check). -/
theorem C9_midbatch_store_failure_witness :
    1 < ([⟨"a", "t", "n", 1, none, none, none⟩, ⟨"b", "t", "n", 2, none, none, none⟩] :
      List ClientRecord).length ∧
    cleanCalls 1 100 []
        (([⟨"a", "t", "n", 1, none, none, none⟩,
           ⟨"b", "t", "n", 2, none, none, none⟩] : List ClientRecord).take 1) ≤ 2 ∧
    2 < cleanCalls 1 100 []
        (([⟨"a", "t", "n", 1, none, none, none⟩,
           ⟨"b", "t", "n", 2, none, none, none⟩] : List ClientRecord).take 2) ∧
    ((handler 100 ⟨some (Tok.valid 1), .upload,
        some (.array [⟨"a", "t", "n", 1, none, none, none⟩,
                      ⟨"b", "t", "n", 2, none, none, none⟩]), none⟩ [] ⟨some 2, 0⟩).resp =
      resp500 storeFailure ∧
    (handler 100 ⟨some (Tok.valid 1), .upload,
        some (.array [⟨"a", "t", "n", 1, none, none, none⟩,
                      ⟨"b", "t", "n", 2, none, none, none⟩]), none⟩ [] ⟨some 2, 0⟩).db =
      (uploadLoop 1 100
        (([⟨"a", "t", "n", 1, none, none, none⟩,
           ⟨"b", "t", "n", 2, none, none, none⟩] : List ClientRecord).take 1)
        [] 0 0 ⟨none, 0⟩).db) :=
  ⟨by decide, by decide, by decide,
   C9_midbatch_store_failure 1 100
     [⟨"a", "t", "n", 1, none, none, none⟩, ⟨"b", "t", "n", 2, none, none, none⟩]
     [] 1 2 (by decide) (by decide) (by decide)⟩
